import Mathlib

/-!
# Verification of the `build-utils` build-orchestration library

Shallow embedding of the Rust sources under `src/` (crate `build-utils`):

* `src/util.rs` — `TemporaryPath` lifecycle, `create_temporary_path`;
* `src/build/mod.rs` — `Build`, `BuildBuilder::build` (build-hash derivation),
  `Build::execute`, `BuildResult`, `BuildResult::emit_cargo`;
* `src/build/meson.rs` — `MesonBuild::hash`, `MesonBuild::execute`
  (setup/compile/install state machine and install-manifest parsing);
* `src/source/file.rs` — `BuildSourceDirectory::new` / `::setup`;
* `src/source/download.rs` — `BuildSourceGit::setup`.

Machine integers (`u64`) are modelled as `Nat` with explicit `% 2^64`.
Rust `String`s fed to hashers are modelled by their UTF-8 byte lists
(`List Nat`); strings manipulated textually are modelled as `List Char`.
Filesystem probes and subprocess invocations are modelled as explicit
oracle parameters.
-/

namespace BuildUtils

/-! ## SipHash-1-3 (Rust `std::collections::hash_map::DefaultHasher`)

`BuildBuilder::build` (src/build/mod.rs:360-373) hashes the configuration
with `DefaultHasher::new()`, which is SipHash-1-3 with both keys zero.
The streaming hasher is semantically the hash of the concatenation of all
written bytes; we embed it as a pure function over that byte list. -/

def wrap64 (n : Nat) : Nat := n % 2 ^ 64

def add64 (a b : Nat) : Nat := (a + b) % 2 ^ 64

/-- `u64::rotate_left` for `x < 2^64`, `0 < n < 64`. -/
def rotl64 (x n : Nat) : Nat := ((x <<< n) % 2 ^ 64) ||| (x >>> (64 - n))

structure SipState where
  v0 : Nat
  v1 : Nat
  v2 : Nat
  v3 : Nat

/-- One SipHash round (the `compress!` macro of Rust's `sip.rs`). -/
def sipRound (s : SipState) : SipState :=
  let v0 := add64 s.v0 s.v1
  let v1 := rotl64 s.v1 13
  let v1 := v1 ^^^ v0
  let v0 := rotl64 v0 32
  let v2 := add64 s.v2 s.v3
  let v3 := rotl64 s.v3 16
  let v3 := v3 ^^^ v2
  let v0 := add64 v0 v3
  let v3 := rotl64 v3 21
  let v3 := v3 ^^^ v0
  let v2 := add64 v2 v1
  let v1 := rotl64 v1 17
  let v1 := v1 ^^^ v2
  let v2 := rotl64 v2 32
  ⟨v0, v1, v2, v3⟩

/-- Process one 8-byte message word: `v3 ^= m; c_rounds (= 1 round); v0 ^= m`. -/
def sipCompress (s : SipState) (m : Nat) : SipState :=
  let s := { s with v3 := s.v3 ^^^ m }
  let s := sipRound s
  { s with v0 := s.v0 ^^^ m }

/-- Little-endian value of a byte list. -/
def leU64 (bytes : List Nat) : Nat := bytes.foldr (fun b acc => b + 256 * acc) 0

/-- Split a byte stream into full 8-byte little-endian words plus the tail. -/
def sipBlocks : List Nat → List Nat × List Nat
  | b0 :: b1 :: b2 :: b3 :: b4 :: b5 :: b6 :: b7 :: rest =>
      let p := sipBlocks rest
      (leU64 [b0, b1, b2, b3, b4, b5, b6, b7] :: p.1, p.2)
  | rest => ([], rest)

/-- SipHash-1-3 with keys `(0, 0)`: the value `DefaultHasher::finish`
returns after the given bytes have been written. -/
def siphash13 (bytes : List Nat) : Nat :=
  let s0 : SipState :=
    ⟨0x736f6d6570736575, 0x646f72616e646f6d, 0x6c7967656e657261, 0x7465646279746573⟩
  let p := sipBlocks bytes
  let s := p.1.foldl sipCompress s0
  let b : Nat := (((bytes.length % 256) <<< 56) ||| leU64 p.2) % 2 ^ 64
  let s := sipCompress s b
  let s := { s with v2 := s.v2 ^^^ 0xff }
  let s := sipRound (sipRound (sipRound s))
  (s.v0 ^^^ s.v1 ^^^ s.v2 ^^^ s.v3) % 2 ^ 64

/-! ## Byte streams written by the `Hash` impls

`str::hash` writes the UTF-8 bytes followed by a single `0xff` byte;
`usize`/`isize` write 8 native-endian (little-endian) bytes. -/

/-- Bytes written by `str::hash` / `String::hash`. -/
def strHashBytes (s : List Nat) : List Nat := s ++ [0xff]

/-- Little-endian 8-byte encoding (`write_usize` on a 64-bit host). -/
def leBytes8 (n : Nat) : List Nat :=
  [n % 256, n / 2 ^ 8 % 256, n / 2 ^ 16 % 256, n / 2 ^ 24 % 256,
   n / 2 ^ 32 % 256, n / 2 ^ 40 % 256, n / 2 ^ 48 % 256, n / 2 ^ 56 % 256]

/-- `LibraryType` (src/build/mod.rs:12-16). -/
inductive LibraryType where
  | Static
  | Shared
deriving DecidableEq, Repr

/-- Discriminant used by the derived `Hash` for `LibraryType`. -/
def LibraryType.discriminant : LibraryType → Nat
  | .Static => 0
  | .Shared => 1

/-- Bytes `MesonBuild::hash` (src/build/meson.rs:25-30) writes: for each
option pair, in the map's iteration order, the key then the value. -/
def MesonBuild.hashBytes : List (List Nat × List Nat) → List Nat
  | [] => []
  | kv :: rest => strHashBytes kv.1 ++ strHashBytes kv.2 ++ MesonBuild.hashBytes rest

/-- One entry of `BuildBuilder.steps` as seen by the hash computation:
the step's name and the bytes its `hash` implementation writes. -/
structure StepEntry where
  name : List Nat
  hashBytes : List Nat
deriving DecidableEq

/-- The configuration fields `BuildBuilder::build` (src/build/mod.rs:334-396)
has in hand when it derives `build_hash`.  `sourceHashBytes` are the bytes
the source's `hash` impl writes; `installPrefix`, when present, carries the
bytes the `PathBuf`'s `Hash` impl writes.  `remove_build_dir` and the
explicit base `build_path` are *not* hashed. -/
structure BuildConfig where
  name : List Nat
  sourceHashBytes : List Nat
  installPrefix : Option (List Nat)
  library_type : LibraryType
  steps : List StepEntry
  remove_build_dir : Bool
  base_path : Option (List Char)

/-- Bytes written by `Option<PathBuf>::hash`: the discriminant (as `isize`)
followed, for `Some`, by the payload's bytes. -/
def optionHashBytes : Option (List Nat) → List Nat
  | none => leBytes8 0
  | some bs => leBytes8 1 ++ bs

/-- Bytes written by the `enumerate`d step loop of `BuildBuilder::build`
(src/build/mod.rs:366-371), starting at index `i`: for each step,
`index.hash` then `step.name().hash` then `step.hash`. -/
def stepsHashBytesFrom (i : Nat) : List StepEntry → List Nat
  | [] => []
  | st :: rest => leBytes8 i ++ strHashBytes st.name ++ st.hashBytes ++ stepsHashBytesFrom (i + 1) rest

/-- The full byte stream `BuildBuilder::build` feeds to the hasher
(src/build/mod.rs:360-373). -/
def buildHashBytes (c : BuildConfig) : List Nat :=
  strHashBytes c.name ++ c.sourceHashBytes ++ optionHashBytes c.installPrefix ++
    leBytes8 c.library_type.discriminant ++ stepsHashBytesFrom 0 c.steps

/-- `build_hash` as computed at src/build/mod.rs:360-373. -/
def build_hash (c : BuildConfig) : Nat := siphash13 (buildHashBytes c)

/-- UTF-8 bytes of the step name `"meson build"` (src/build/meson.rs:22). -/
def mesonStepName : List Nat := [109, 101, 115, 111, 110, 32, 98, 117, 105, 108, 100]

/-- A configuration with a single meson step whose option map iterates in
the given order; all other fields fixed.  Used to probe the dependence of
`build_hash` on the meson step's option data. -/
def oneMesonStepConfig (opts : List (List Nat × List Nat)) : BuildConfig :=
  { name := [110]
    sourceHashBytes := []
    installPrefix := none
    library_type := .Static
    steps := [⟨mesonStepName, MesonBuild.hashBytes opts⟩]
    remove_build_dir := true
    base_path := none }

/-! ## Working-directory name derivation (src/build/mod.rs:375-376)

`base64::encode(build_hash.to_be_bytes()).replace("/", "_")` combined into
`build_<name>_<token>`. -/

def b64Alphabet : List Char :=
  "ABCDEFGHIJKLMNOPQRSTUVWXYZabcdefghijklmnopqrstuvwxyz0123456789+/".toList

def b64Char (i : Nat) : Char := b64Alphabet.getD i 'A'

/-- RFC 4648 base64 encoding with padding (the `base64` crate's `encode`). -/
def base64Encode : List Nat → List Char
  | [] => []
  | [b0] => [b64Char (b0 / 4), b64Char (b0 % 4 * 16), '=', '=']
  | [b0, b1] => [b64Char (b0 / 4), b64Char (b0 % 4 * 16 + b1 / 16), b64Char (b1 % 16 * 4), '=']
  | b0 :: b1 :: b2 :: rest =>
      b64Char (b0 / 4) :: b64Char (b0 % 4 * 16 + b1 / 16) ::
        b64Char (b1 % 16 * 4 + b2 / 64) :: b64Char (b2 % 64) :: base64Encode rest

/-- `u64::to_be_bytes`. -/
def beBytes8 (n : Nat) : List Nat :=
  [n / 2 ^ 56 % 256, n / 2 ^ 48 % 256, n / 2 ^ 40 % 256, n / 2 ^ 32 % 256,
   n / 2 ^ 24 % 256, n / 2 ^ 16 % 256, n / 2 ^ 8 % 256, n % 256]

/-- `.replace("/", "_")` on single characters (the base64 alphabet is the
only input, so a character-wise replacement is exact). -/
def slashToUnderscore (c : Char) : Char := if c = '/' then '_' else c

/-- The filesystem-safe token derived from the build hash. -/
def hashToken (h : Nat) : List Char := (base64Encode (beBytes8 h)).map slashToUnderscore

/-- `format!("build_{}_{}", name, hash_str)` (src/build/mod.rs:376). -/
def buildDirName (name : List Char) (h : Nat) : List Char :=
  "build_".toList ++ name ++ "_".toList ++ hashToken h

/-- Index of a token character back into the (replaced) base64 alphabet. -/
def b64Index (c : Char) : Nat := if c = '_' then 63 else b64Alphabet.indexOf c

/-- Left inverse of `hashToken` on 64-bit hashes: recovers the hash value
from the twelve token characters. -/
def decodeToken : List Char → Nat
  | [c0, c1, c2, c3, c4, c5, c6, c7, c8, c9, c10, _c11] =>
      let j0 := b64Index c0
      let j1 := b64Index c1
      let j2 := b64Index c2
      let j3 := b64Index c3
      let j4 := b64Index c4
      let j5 := b64Index c5
      let j6 := b64Index c6
      let j7 := b64Index c7
      let j8 := b64Index c8
      let j9 := b64Index c9
      let j10 := b64Index c10
      (j0 * 4 + j1 / 16) * 2 ^ 56 + (j1 % 16 * 16 + j2 / 4) * 2 ^ 48 +
        (j2 % 4 * 64 + j3) * 2 ^ 40 + (j4 * 4 + j5 / 16) * 2 ^ 32 +
        (j5 % 16 * 16 + j6 / 4) * 2 ^ 24 + (j6 % 4 * 64 + j7) * 2 ^ 16 +
        (j8 * 4 + j9 / 16) * 2 ^ 8 + (j9 % 16 * 16 + j10 / 4)
  | _ => 0

set_option maxHeartbeats 2000000 in
theorem b64_roundtrip : ∀ j < 64, b64Index (slashToUnderscore (b64Char j)) = j := by decide

theorem decode_encode_bytes (a0 a1 a2 a3 a4 a5 a6 a7 : Nat)
    (h0 : a0 < 256) (h1 : a1 < 256) (h2 : a2 < 256) (h3 : a3 < 256)
    (h4 : a4 < 256) (h5 : a5 < 256) (h6 : a6 < 256) (h7 : a7 < 256) :
    decodeToken ((base64Encode [a0, a1, a2, a3, a4, a5, a6, a7]).map slashToUnderscore) =
      a0 * 2 ^ 56 + a1 * 2 ^ 48 + a2 * 2 ^ 40 + a3 * 2 ^ 32 +
        a4 * 2 ^ 24 + a5 * 2 ^ 16 + a6 * 2 ^ 8 + a7 := by
  have k0 := b64_roundtrip (a0 / 4) (by omega)
  have k1 := b64_roundtrip (a0 % 4 * 16 + a1 / 16) (by omega)
  have k2 := b64_roundtrip (a1 % 16 * 4 + a2 / 64) (by omega)
  have k3 := b64_roundtrip (a2 % 64) (by omega)
  have k4 := b64_roundtrip (a3 / 4) (by omega)
  have k5 := b64_roundtrip (a3 % 4 * 16 + a4 / 16) (by omega)
  have k6 := b64_roundtrip (a4 % 16 * 4 + a5 / 64) (by omega)
  have k7 := b64_roundtrip (a5 % 64) (by omega)
  have k8 := b64_roundtrip (a6 / 4) (by omega)
  have k9 := b64_roundtrip (a6 % 4 * 16 + a7 / 16) (by omega)
  have k10 := b64_roundtrip (a7 % 16 * 4) (by omega)
  simp only [base64Encode, List.map_cons, List.map_nil, decodeToken]
  rw [k0, k1, k2, k3, k4, k5, k6, k7, k8, k9, k10]
  omega

set_option maxHeartbeats 2000000 in
theorem decodeToken_hashToken (h : Nat) (hh : h < 2 ^ 64) : decodeToken (hashToken h) = h := by
  have key := decode_encode_bytes (h / 2 ^ 56 % 256) (h / 2 ^ 48 % 256) (h / 2 ^ 40 % 256)
    (h / 2 ^ 32 % 256) (h / 2 ^ 24 % 256) (h / 2 ^ 16 % 256) (h / 2 ^ 8 % 256) (h % 256)
    (by omega) (by omega) (by omega) (by omega) (by omega) (by omega) (by omega) (by omega)
  simp only [hashToken, beBytes8]
  rw [key]
  omega

/-! ## Hash lemmas -/

theorem build_hash_lt (c : BuildConfig) : build_hash c < 2 ^ 64 := by
  unfold build_hash siphash13
  exact Nat.mod_lt _ (by norm_num)

theorem stepsHashBytesFrom_append (i : Nat) (l₁ l₂ : List StepEntry) :
    stepsHashBytesFrom i (l₁ ++ l₂) =
      stepsHashBytesFrom i l₁ ++ stepsHashBytesFrom (i + l₁.length) l₂ := by
  induction l₁ generalizing i with
  | nil => simp [stepsHashBytesFrom]
  | cons st rest ih =>
      have harith : i + 1 + rest.length = i + (rest.length + 1) := by omega
      simp only [List.cons_append, stepsHashBytesFrom, List.append_eq, ih, List.length_cons,
        List.append_assoc, harith]

theorem mesonHashBytes_append (l₁ l₂ : List (List Nat × List Nat)) :
    MesonBuild.hashBytes (l₁ ++ l₂) = MesonBuild.hashBytes l₁ ++ MesonBuild.hashBytes l₂ := by
  induction l₁ with
  | nil => simp [MesonBuild.hashBytes]
  | cons kv rest ih => simp [MesonBuild.hashBytes, ih]

/-- Two byte lists not containing the `0xff` terminator that are followed by
the terminator and a common continuation coincide whenever the full streams
coincide (the reason `str::hash` appends `0xff`). -/
theorem append_sep_inj {v₁ v₂ S₁ S₂ : List Nat} (n₁ : 255 ∉ v₁) (n₂ : 255 ∉ v₂)
    (h : v₁ ++ 255 :: S₁ = v₂ ++ 255 :: S₂) : v₁ = v₂ := by
  induction v₁ generalizing v₂ with
  | nil =>
      cases v₂ with
      | nil => rfl
      | cons b t =>
          simp only [List.nil_append, List.cons_append, List.cons.injEq] at h
          exact absurd (h.1 ▸ List.mem_cons_self b t) (by simp [← h.1] at n₂ ⊢)
  | cons a t ih =>
      cases v₂ with
      | nil =>
          simp only [List.cons_append, List.nil_append, List.cons.injEq] at h
          exact absurd (List.mem_cons_self a t) (by simp [h.1] at n₁ ⊢)
      | cons b u =>
          simp only [List.cons_append, List.cons.injEq] at h
          have := ih (fun hm => n₁ (List.mem_cons_of_mem _ hm))
            (fun hm => n₂ (List.mem_cons_of_mem _ hm)) h.2
          rw [h.1, this]

/-! ## Claim C1 — build-hash determinism and option-order independence -/

/-- **C1** (amended): `build_hash` is a pure function of `name`, the source's
hash bytes, `install_prefix`, `library_type`, and the ordered sequence of
(step index, step name, step hash bytes): two configurations agreeing on
those fields (regardless of `remove_build_dir` or the base `build_path`)
derive the identical 64-bit value, so recomputation over identical inputs —
including an identical option iteration sequence — is deterministic.  The
original claim's second half (independence from the option map's iteration
order) is refuted by `C1_counterexample_option_order`. -/
theorem C1_build_hash_deterministic (c₁ c₂ : BuildConfig)
    (hname : c₁.name = c₂.name) (hsrc : c₁.sourceHashBytes = c₂.sourceHashBytes)
    (hpre : c₁.installPrefix = c₂.installPrefix) (hlib : c₁.library_type = c₂.library_type)
    (hsteps : c₁.steps = c₂.steps) :
    build_hash c₁ = build_hash c₂ := by
  unfold build_hash buildHashBytes
  rw [hname, hsrc, hpre, hlib, hsteps]

/-- Witness for `C1_build_hash_deterministic` at concrete configurations
differing only in the non-hashed fields. -/
theorem C1_build_hash_deterministic_witness :
    build_hash ⟨[110], [], none, .Static, [⟨mesonStepName, MesonBuild.hashBytes [([97], [120])]⟩], true, none⟩ =
      build_hash ⟨[110], [], none, .Static, [⟨mesonStepName, MesonBuild.hashBytes [([97], [120])]⟩], false, some "/tmp".toList⟩ :=
  C1_build_hash_deterministic _ _ rfl rfl rfl rfl rfl

/-- **C1 counterexample**: the meson step's hash contribution *does* depend
on the option map's internal iteration order: the same two option key/value
pairs iterated in the two possible orders yield different build hashes. -/
theorem C1_counterexample_option_order :
    ([([98], [121]), ([97], [120])] : List (List Nat × List Nat)).Perm
        [([97], [120]), ([98], [121])] ∧
      build_hash (oneMesonStepConfig [([98], [121]), ([97], [120])]) ≠
        build_hash (oneMesonStepConfig [([97], [120]), ([98], [121])]) :=
  ⟨by decide, by decide⟩

/-! ## Claim C2 — single-option change and working-directory names -/

/-- **C2 counterexample**: it is *not* the case that any two configurations
differing only in one option value have different build hashes: the hash
has 64 bits while option values (even plain ASCII ones) are unbounded, so
two distinct values with colliding hashes exist by pigeonhole. -/
theorem C2_counterexample_hash_collision :
    ¬ (∀ v₁ v₂ : List Nat, (∀ b ∈ v₁, b < 128) → (∀ b ∈ v₂, b < 128) → v₁ ≠ v₂ →
        build_hash (oneMesonStepConfig [([111], v₁)]) ≠
          build_hash (oneMesonStepConfig [([111], v₂)])) := by
  intro hclaim
  obtain ⟨n, m, hne, heq⟩ :=
    Finite.exists_ne_map_eq_of_infinite
      (fun n : Nat =>
        (⟨build_hash (oneMesonStepConfig [([111], List.replicate n 97)]),
          build_hash_lt _⟩ : Fin (2 ^ 64)))
  have hv : List.replicate n 97 ≠ List.replicate m 97 := by
    intro hc
    exact hne (by simpa using congrArg List.length hc)
  exact hclaim _ _ (by simp) (by simp) hv (by simpa using congrArg Fin.val heq)

/-- **C2** (amended): two configurations identical except in the value of a
single step option (option values being UTF-8 strings, hence free of the
byte `0xff`) feed *different byte streams* to the 64-bit hasher; and for a
fixed build name, distinct 64-bit hashes always produce distinct working
directory names `build_<name>_<token>`.  (Distinctness of the hashes
themselves cannot hold universally: see `C2_counterexample_hash_collision`.) -/
theorem C2_option_change_distinct_hash_input :
    (∀ (nm src : List Nat) (ip : Option (List Nat)) (lt : LibraryType)
       (spre spost : List StepEntry) (sname : List Nat)
       (opre opost : List (List Nat × List Nat)) (k v₁ v₂ : List Nat)
       (rbd₁ rbd₂ : Bool) (bp₁ bp₂ : Option (List Char)),
       v₁ ≠ v₂ → 255 ∉ v₁ → 255 ∉ v₂ →
       buildHashBytes ⟨nm, src, ip, lt,
           spre ++ ⟨sname, MesonBuild.hashBytes (opre ++ (k, v₁) :: opost)⟩ :: spost, rbd₁, bp₁⟩ ≠
         buildHashBytes ⟨nm, src, ip, lt,
           spre ++ ⟨sname, MesonBuild.hashBytes (opre ++ (k, v₂) :: opost)⟩ :: spost, rbd₂, bp₂⟩) ∧
    (∀ (name : List Char) (h₁ h₂ : Nat), h₁ < 2 ^ 64 → h₂ < 2 ^ 64 → h₁ ≠ h₂ →
       buildDirName name h₁ ≠ buildDirName name h₂) := by
  constructor
  · intro nm src ip lt spre spost sname opre opost k v₁ v₂ rbd₁ rbd₂ bp₁ bp₂ hne hm₁ hm₂ heq
    apply hne
    simp only [buildHashBytes, stepsHashBytesFrom_append, stepsHashBytesFrom,
      mesonHashBytes_append, MesonBuild.hashBytes, strHashBytes, List.append_assoc,
      List.singleton_append, List.cons_append, List.append_cancel_left_eq,
      List.cons.injEq, true_and] at heq
    exact append_sep_inj hm₁ hm₂ heq
  · intro name h₁ h₂ hb₁ hb₂ hne hd
    apply hne
    unfold buildDirName at hd
    have htok : hashToken h₁ = hashToken h₂ := List.append_cancel_left hd
    calc h₁ = decodeToken (hashToken h₁) := (decodeToken_hashToken h₁ hb₁).symm
      _ = decodeToken (hashToken h₂) := by rw [htok]
      _ = h₂ := decodeToken_hashToken h₂ hb₂

/-! ## Claim C3 — `TemporaryPath` lifecycle (src/util.rs:70-134)

`TemporaryPath` wraps an `Arc<TemporaryPathInner>`; `release`
(src/util.rs:101-107) sets the shared `released` flag (through an aliased
pointer, so every owner observes it); `TemporaryPathInner::drop`
(src/util.rs:75-83) runs when the last `Arc` owner is dropped and removes
the directory tree iff the flag is unset.  We model the shared allocation
directly: the owner count (the `Arc` strong count), the `released` flag and
a `dirDeleted` effect flag recording whether `remove_dir_all` was invoked. -/

/-- The shared state behind all owners of one `TemporaryPath`. -/
structure TPState where
  owners : Nat
  released : Bool
  dirDeleted : Bool
deriving DecidableEq, Repr

/-- Operations any owner can perform: `clone` (new `Arc` owner),
`release` (src/util.rs:101-107), and dropping one owner (running
`TemporaryPathInner::drop` when it was the last). -/
inductive TPOp where
  | clone
  | release
  | dropOwner
deriving DecidableEq, Repr

/-- `TemporaryPath::release`: sets the shared flag; the path and the owners
are untouched. -/
def TPState.release (s : TPState) : TPState := { s with released := true }

/-- Effect of one operation on the shared state.  Dropping the last owner
runs `TemporaryPathInner::drop`: the directory is removed iff `released`
is still false (a removal error is logged, not surfaced). -/
def TPState.step (s : TPState) : TPOp → TPState
  | .clone => { s with owners := s.owners + 1 }
  | .release => s.release
  | .dropOwner =>
      if s.owners = 1 then
        { owners := 0, released := s.released, dirDeleted := s.dirDeleted || !s.released }
      else
        { s with owners := s.owners - 1 }

def TPState.run (s : TPState) : List TPOp → TPState
  | [] => s
  | op :: rest => (s.step op).run rest

/-- Owner count after an operation (for trace well-formedness). -/
def TPOp.ownersAfter (o : Nat) : TPOp → Nat
  | .clone => o + 1
  | .release => o
  | .dropOwner => o - 1

/-- A trace is well-formed from `o` owners when every operation executes
while at least one owner is alive. -/
def tpValidFrom (o : Nat) : List TPOp → Prop
  | [] => True
  | op :: rest => 1 ≤ o ∧ tpValidFrom (op.ownersAfter o) rest

instance : ∀ o ops, Decidable (tpValidFrom o ops) := fun o ops => by
  induction ops generalizing o with
  | nil => exact .isTrue trivial
  | cons op rest ih => exact @instDecidableAnd _ _ _ (ih _)

def tpOwnersAfterAll (o : Nat) : List TPOp → Nat
  | [] => o
  | op :: rest => tpOwnersAfterAll (op.ownersAfter o) rest

/-- Fresh state produced by `create_temporary_path` (src/util.rs:123-134):
one owner, not released, directory present. -/
def tpInit : TPState := ⟨1, false, false⟩

theorem tp_run_deleted (ops : List TPOp) :
    ∀ (o : Nat) (r : Bool), 1 ≤ o → tpValidFrom o ops → tpOwnersAfterAll o ops = 0 →
      ((TPState.run ⟨o, r, false⟩ ops).dirDeleted = true ↔ (r = false ∧ TPOp.release ∉ ops)) := by
  induction ops with
  | nil =>
      intro o r ho _ hzero
      simp only [tpOwnersAfterAll] at hzero
      omega
  | cons op rest ih =>
      intro o r ho hvalid hzero
      obtain ⟨-, hvrest⟩ := hvalid
      simp only [tpOwnersAfterAll] at hzero
      cases op with
      | clone =>
          simp only [TPState.run, TPState.step, List.mem_cons]
          rw [ih (o + 1) r (by omega) hvrest hzero]
          simp
      | release =>
          simp only [TPState.run, TPState.step, TPState.release, List.mem_cons]
          rw [ih o true (by omega) hvrest hzero]
          simp
      | dropOwner =>
          by_cases h1 : o = 1
          · subst h1
            have hrest : rest = [] := by
              cases rest with
              | nil => rfl
              | cons op' rest' => exact absurd hvrest.1 (by simp [TPOp.ownersAfter])
            subst hrest
            simp only [TPState.run, TPState.step, if_pos rfl, List.mem_cons]
            cases r <;> simp
          · simp only [TPState.run, TPState.step, if_neg h1, List.mem_cons]
            rw [ih (o - 1) r (by simp only [TPOp.ownersAfter] at hvrest hzero ⊢; omega)
              hvrest hzero]
            simp

/-- **C3**: for every well-formed operation trace on a fresh handle that
ends with the destruction of the last owner, the backing directory is
recursively deleted iff `release()` was never called by any owner; and
`release` is idempotent; and once the released flag is set, no operation
on any owner clears it. -/
theorem C3_temporary_path_release :
    (∀ ops : List TPOp, tpValidFrom 1 ops → tpOwnersAfterAll 1 ops = 0 →
       ((TPState.run tpInit ops).dirDeleted = true ↔ TPOp.release ∉ ops)) ∧
    (∀ s : TPState, s.release.release = s.release) ∧
    (∀ (s : TPState) (op : TPOp), s.released = true → (s.step op).released = true) := by
  refine ⟨?_, ?_, ?_⟩
  · intro ops hvalid hzero
    rw [show tpInit = (⟨1, false, false⟩ : TPState) from rfl,
      tp_run_deleted ops 1 false (by omega) hvalid hzero]
    simp
  · intro s
    rfl
  · intro s op hrel
    cases op with
    | clone => simpa [TPState.step] using hrel
    | release => simp [TPState.step, TPState.release]
    | dropOwner =>
        by_cases h1 : s.owners = 1
        · simpa [TPState.step, h1] using hrel
        · simpa [TPState.step, h1] using hrel

/-- Witness for `C3_temporary_path_release`: a handle cloned once, released,
then dropped by both owners keeps its directory; the released flag survives
every step. -/
theorem C3_temporary_path_release_witness :
    ((TPState.run tpInit [.clone, .dropOwner, .release, .dropOwner]).dirDeleted = true ↔
      TPOp.release ∉ ([.clone, .dropOwner, .release, .dropOwner] : List TPOp)) ∧
    (TPState.release (TPState.release ⟨2, false, false⟩) = TPState.release ⟨2, false, false⟩) ∧
    ((TPState.step ⟨1, true, false⟩ .dropOwner).released = true) :=
  ⟨C3_temporary_path_release.1 [.clone, .dropOwner, .release, .dropOwner]
      (by decide) (by decide),
    C3_temporary_path_release.2.1 ⟨2, false, false⟩,
    C3_temporary_path_release.2.2 ⟨1, true, false⟩ .dropOwner rfl⟩

/-- Witness for `C2_option_change_distinct_hash_input` at concrete inputs. -/
theorem C2_option_change_distinct_hash_input_witness :
    buildHashBytes ⟨[110], [], none, .Static,
        [⟨mesonStepName, MesonBuild.hashBytes [([111], [120])]⟩], true, none⟩ ≠
      buildHashBytes ⟨[110], [], none, .Static,
        [⟨mesonStepName, MesonBuild.hashBytes [([111], [121])]⟩], true, none⟩ ∧
    buildDirName [] 0 ≠ buildDirName [] 1 :=
  ⟨C2_option_change_distinct_hash_input.1 [110] [] none .Static [] [] mesonStepName
      [] [] [111] [120] [121] true true none none (by decide) (by decide) (by decide),
    C2_option_change_distinct_hash_input.2 [] 0 1 (by norm_num) (by norm_num) (by norm_num)⟩

/-! ## `BuildResult` and the host-protocol emission (src/build/mod.rs:137-219)

Textual data is modelled as `List Char`.  `LibraryType::to_string` and
`LinkSearchKind::to_string` are the `ToString` impls at
src/build/mod.rs:18-25 and 36-46. -/

def LibraryType.toChars : LibraryType → List Char
  | .Shared => "dylib".toList
  | .Static => "static".toList

/-- `LinkSearchKind` (src/build/mod.rs:27-34). -/
inductive LinkSearchKind where
  | Dependency
  | Crate
  | Native
  | Framework
  | All
deriving DecidableEq, Repr

def LinkSearchKind.toChars : LinkSearchKind → List Char
  | .Dependency => "dependency".toList
  | .Crate => "crate".toList
  | .Native => "native".toList
  | .Framework => "framework".toList
  | .All => "all".toList

/-- `BuildLibrary` (src/build/mod.rs:137-140). -/
structure BuildLibrary where
  name : List Char
  kind : Option LibraryType
deriving DecidableEq, Repr

/-- `BuildLibrary::to_string` (src/build/mod.rs:142-150). -/
def BuildLibrary.toChars (l : BuildLibrary) : List Char :=
  match l.kind with
  | some kind => kind.toChars ++ "=".toList ++ l.name
  | none => l.name

/-- `BuildLibraryPath` (src/build/mod.rs:152-155). -/
structure BuildLibraryPath where
  path : List Char
  kind : LinkSearchKind
deriving DecidableEq, Repr

/-- `BuildLibraryPath::to_string` (src/build/mod.rs:157-165). -/
def BuildLibraryPath.toChars (p : BuildLibraryPath) : List Char :=
  if p.kind = LinkSearchKind.All then p.path
  else p.kind.toChars ++ "=".toList ++ p.path

/-- `BuildResult` (src/build/mod.rs:167-171). -/
structure BuildResult where
  libraries : List BuildLibrary
  library_paths : List BuildLibraryPath
  custom_compiler_emits : List (List Char)
deriving DecidableEq, Repr

/-- `BuildResult::new` (src/build/mod.rs:174-180). -/
def BuildResult.new : BuildResult := ⟨[], [], []⟩

/-- `BuildResult::add_library` (src/build/mod.rs:182-185). -/
def BuildResult.add_library (r : BuildResult) (name : List Char) (kind : Option LibraryType) :
    BuildResult :=
  { r with libraries := r.libraries ++ [⟨name, kind⟩] }

/-- `BuildResult::add_library_path` (src/build/mod.rs:191-195). -/
def BuildResult.add_library_path (r : BuildResult) (path : List Char)
    (kind : Option LinkSearchKind) : BuildResult :=
  { r with library_paths := r.library_paths ++ [⟨path, kind.getD LinkSearchKind.All⟩] }

/-- `BuildResult::add_emit` (src/build/mod.rs:201-204). -/
def BuildResult.add_emit (r : BuildResult) (line : List Char) : BuildResult :=
  { r with custom_compiler_emits := r.custom_compiler_emits ++ [line] }

/-- `BuildResult::emit_cargo` (src/build/mod.rs:206-218): the lines printed
to the host build system, in order.  Note that the *libraries* loop at
src/build/mod.rs:211-213 prints a `cargo:rustc-link-search=` line, exactly
as the search-path loop does. -/
def BuildResult.emit_cargo (r : BuildResult) : List (List Char) :=
  r.library_paths.map (fun path => "cargo:rustc-link-search=".toList ++ path.toChars) ++
    r.libraries.map (fun path => "cargo:rustc-link-search=".toList ++ path.toChars) ++
    r.custom_compiler_emits.map (fun emit => "cargo:".toList ++ emit)

/-! ## Claim C9 — host-protocol emission -/

/-- **C9** (code bug): for a `BuildResult` holding exactly one static
library named `foo`, `emit_cargo` prints
`cargo:rustc-link-search=static=foo` — a link-*search* directive — rather
than a `cargo:rustc-link-lib=static=foo` link-lib directive as the
spec's output protocol requires (`static` is not even a valid
`rustc-link-search` kind).  The library loop at src/build/mod.rs:211-213
repeats the search-path loop's prefix verbatim. -/
theorem C9_emit_cargo_uses_link_search_for_libraries :
    BuildResult.emit_cargo ⟨[⟨"foo".toList, some .Static⟩], [], []⟩ =
        ["cargo:rustc-link-search=static=foo".toList] ∧
      (BuildResult.emit_cargo ⟨[⟨"foo".toList, some .Static⟩], [], []⟩).all
          (fun line => decide ("cargo:rustc-link-lib".toList.isPrefixOf line = false)) = true := by
  constructor
  · decide
  · decide

/-! ## Claim C5 — orchestrator execution (src/build/mod.rs:280-300)

`Build::execute` first runs `source.setup()`, then each step in order over
the shared result.  A step is modelled by its name and its `execute`
behaviour as a function of the result accumulated so far; the
orchestrator additionally records the trace of step executions so that
"no later step is executed" is an actual statement of the theorem. -/

/-- `BuildStepError` (src/build/mod.rs:98-135). -/
structure BuildStepError where
  detail : List Char
  stdout : List Char
  stderr : List Char
deriving DecidableEq, Repr

/-- `BuildStepError::new_simple` (src/build/mod.rs:107-111). -/
def BuildStepError.new_simple (detail : List Char) : BuildStepError := ⟨detail, [], []⟩

/-- `BuildError` (src/build/mod.rs:73-77). -/
structure BuildError where
  step : List Char
  error : BuildStepError
deriving DecidableEq, Repr

/-- A `BuildStep` as `Build::execute` observes it: its `name()` and the
effect of `execute(self, build, result)` on the shared result (the step may
fail with a `BuildStepError`). -/
structure StepModel where
  name : List Char
  run : BuildResult → Except BuildStepError BuildResult

/-- The step loop of `Build::execute` (src/build/mod.rs:289-298),
additionally returning the names of the steps that were executed. -/
def execSteps : List StepModel → BuildResult → Except BuildError BuildResult × List (List Char)
  | [], r => (.ok r, [])
  | s :: rest, r =>
      match s.run r with
      | .error e => (.error ⟨s.name, e⟩, [s.name])
      | .ok r' =>
          let p := execSteps rest r'
          (p.1, s.name :: p.2)

/-- `Build::execute` (src/build/mod.rs:280-300): `source.setup()` first,
then the steps in insertion order from a fresh `BuildResult`. -/
def Build.execute (setup : Except BuildStepError Unit) (steps : List StepModel) :
    Except BuildError BuildResult × List (List Char) :=
  match setup with
  | .error e => (.error ⟨"source setup".toList, e⟩, [])
  | .ok _ => execSteps steps BuildResult.new

/-- Successive successful execution of a list of steps (used to phrase
"all earlier steps succeed"). -/
def runAllOk : List StepModel → BuildResult → Option BuildResult
  | [], r => some r
  | s :: rest, r =>
      match s.run r with
      | .error _ => none
      | .ok r' => runAllOk rest r'

theorem execSteps_append_ok (pre : List StepModel) :
    ∀ (rest : List StepModel) (r r' : BuildResult), runAllOk pre r = some r' →
      execSteps (pre ++ rest) r =
        ((execSteps rest r').1, pre.map StepModel.name ++ (execSteps rest r').2) := by
  induction pre with
  | nil =>
      intro rest r r' h
      simp only [runAllOk, Option.some.injEq] at h
      subst h
      simp
  | cons s pres ih =>
      intro rest r r' h
      cases hrun : s.run r with
      | error e => simp only [runAllOk, hrun] at h; exact absurd h (by simp)
      | ok r₁ =>
          simp only [runAllOk, hrun] at h
          simp only [List.cons_append, execSteps, hrun, List.map_cons, List.append_eq,
            ih rest r₁ r' h, List.cons_append]

/-- **C5**: `Build::execute` (a) on setup failure returns immediately an
error tagged `"source setup"` with no step executed; (b) when every step
before `s` succeeds and `s` fails, returns the error tagged with `s`'s name
having executed exactly the earlier steps and `s` (later steps are not
executed); (c) when every step succeeds, returns the accumulated result
with every step executed in insertion order. -/
theorem C5_execute_order_and_short_circuit :
    (∀ (e : BuildStepError) (steps : List StepModel),
       Build.execute (.error e) steps = (.error ⟨"source setup".toList, e⟩, [])) ∧
    (∀ (pre post : List StepModel) (s : StepModel) (r' : BuildResult) (e : BuildStepError),
       runAllOk pre BuildResult.new = some r' → s.run r' = .error e →
       Build.execute (.ok ()) (pre ++ s :: post) =
         (.error ⟨s.name, e⟩, pre.map StepModel.name ++ [s.name])) ∧
    (∀ (steps : List StepModel) (r' : BuildResult),
       runAllOk steps BuildResult.new = some r' →
       Build.execute (.ok ()) steps = (.ok r', steps.map StepModel.name)) := by
  refine ⟨fun e steps => rfl, ?_, ?_⟩
  · intro pre post s r' e hpre hs
    simp only [Build.execute, execSteps_append_ok pre (s :: post) BuildResult.new r' hpre,
      execSteps, hs]
  · intro steps r' h
    have := execSteps_append_ok steps [] BuildResult.new r' h
    simp only [List.append_nil] at this
    simp only [Build.execute, this, execSteps, List.append_nil]

/-- Witness for `C5_execute_order_and_short_circuit`: one succeeding step
that appends a library, then a failing step, then a step that must not
run. -/
theorem C5_execute_order_and_short_circuit_witness :
    Build.execute (.error (BuildStepError.new_simple "no git".toList)) [⟨"a".toList, fun r => .ok r⟩] =
        (.error ⟨"source setup".toList, BuildStepError.new_simple "no git".toList⟩, []) ∧
      Build.execute (.ok ())
          [⟨"ok".toList, fun r => .ok (r.add_emit "x".toList)⟩,
           ⟨"bad".toList, fun _ => .error (BuildStepError.new_simple "boom".toList)⟩,
           ⟨"never".toList, fun r => .ok r⟩] =
        (.error ⟨"bad".toList, BuildStepError.new_simple "boom".toList⟩,
          ["ok".toList, "bad".toList]) ∧
      Build.execute (.ok ()) [⟨"ok".toList, fun r => .ok (r.add_emit "x".toList)⟩] =
        (.ok (BuildResult.new.add_emit "x".toList), ["ok".toList]) :=
  ⟨C5_execute_order_and_short_circuit.1 (BuildStepError.new_simple "no git".toList)
      [⟨"a".toList, fun r => .ok r⟩],
    C5_execute_order_and_short_circuit.2.1
      [⟨"ok".toList, fun r => .ok (r.add_emit "x".toList)⟩]
      [⟨"never".toList, fun r => .ok r⟩]
      ⟨"bad".toList, fun _ => .error (BuildStepError.new_simple "boom".toList)⟩
      (BuildResult.new.add_emit "x".toList) (BuildStepError.new_simple "boom".toList)
      rfl rfl,
    C5_execute_order_and_short_circuit.2.2
      [⟨"ok".toList, fun r => .ok (r.add_emit "x".toList)⟩]
      (BuildResult.new.add_emit "x".toList) rfl⟩

/-! ## String primitives for the meson step (modelled on `str::split`,
`str::lines`, `Path::file_name`, `Path::extension`)

Rust strings are modelled as `List Char`; splitting uses explicit fuel
(`s.length + 1` always suffices since every recursive call consumes at
least one character for a non-empty pattern). -/

/-- `str::split` with a non-empty string pattern (non-overlapping,
left-to-right); fuel-driven worker. -/
def splitOnAux (sep : List Char) : Nat → List Char → List Char → List (List Char)
  | _, [], acc => [acc.reverse]
  | 0, s, acc => [acc.reverse ++ s]
  | fuel + 1, c :: rest, acc =>
      if sep.isPrefixOf (c :: rest) then
        acc.reverse :: splitOnAux sep fuel ((c :: rest).drop sep.length) []
      else
        splitOnAux sep fuel rest (c :: acc)

def splitOnList (s sep : List Char) : List (List Char) := splitOnAux sep (s.length + 1) s []

/-- Strip one trailing `'\r'` (the `\r\n` handling of `str::lines`). -/
def stripCRend (l : List Char) : List Char := if l.getLast? = some '\r' then l.dropLast else l

/-- `str::lines`: split at `'\n'`, drop a trailing empty segment (terminal
newline optional), strip `'\r'` from every segment that was terminated by a
newline. -/
def rustLines (s : List Char) : List (List Char) :=
  let parts := splitOnList s [Char.ofNat 10]
  match parts.getLast? with
  | none => []
  | some last => parts.dropLast.map stripCRend ++ (if last = [] then [] else [last])

/-- Characters after the last `'.'`, if any (`Path::extension` helper). -/
def afterLastDot : List Char → Option (List Char)
  | [] => none
  | '.' :: rest => some ((afterLastDot rest).getD rest)
  | _ :: rest => afterLastDot rest

/-- `Path::file_name` for Unix-style string paths: the last normal
component (empty and `"."` components are not components; a terminating
`".."` has no file name). -/
def pathFileName (p : List Char) : Option (List Char) :=
  let comps := (splitOnList p ['/']).filter (fun c => !c.isEmpty && c ≠ ['.'])
  match comps.getLast? with
  | none => none
  | some last => if last = ['.', '.'] then none else some last

/-- `Path::extension`: portion of the file name after its final `'.'`;
none when there is no embedded `'.'` (a leading `'.'` marks a hidden file,
not an extension). -/
def pathExtension (p : List Char) : Option (List Char) :=
  match pathFileName p with
  | none => none
  | some [] => none
  | some (c :: rest) => if c = '.' then afterLastDot rest else afterLastDot (c :: rest)

/-! ## Claims C6/C7 — the meson install-manifest parser
(src/build/meson.rs:95-146)

The subprocess world enters as the captured `stdout`/`stderr` of
`meson install` and an `isDir` oracle for `Path::is_dir`. -/

/-- Detail string of the "more than one \" to \" parts" parse error
(src/build/meson.rs:115). -/
def msgTooManyParts (full_line : List Char) : List Char :=
  "Meson line \"".toList ++ full_line ++ "\" contains more than one \" to \" parts.".toList

/-- Detail string of the "misses the key or value" parse error
(src/build/meson.rs:118). -/
def msgMissingSide (full_line : List Char) : List Char :=
  "Meson line \"".toList ++ full_line ++ "\" misses the key or value.".toList

/-- `HashMap::insert` on the association-list model of
`installed_elements`: an existing key's value is replaced (last writer
wins), a new key is appended.  (The real `HashMap` iterates in an
arbitrary order; the model fixes first-insertion order, which only affects
the relative order of entries for *different* keys.) -/
def assocInsert : List (List Char × List Char) → List Char → List Char →
    List (List Char × List Char)
  | [], k, v => [(k, v)]
  | (k', v') :: rest, k, v =>
      if k' = k then (k, v) :: rest else (k', v') :: assocInsert rest k v

def assocLookup : List (List Char × List Char) → List Char → Option (List Char)
  | [], _ => none
  | (k', v') :: rest, k => if k' = k then some v' else assocLookup rest k

/-- The body of the parse loop (src/build/meson.rs:107-121) for one
`Installing ` line: cut the 11-character marker, split on `" to "`
(`key` and `value` are the iterator's first two elements), error when a
third element exists or a side is missing, otherwise insert the pair into
the aggregation map. -/
def parseOneLine (stdout stderr full_line : List Char)
    (acc : List (List Char × List Char)) :
    Except BuildStepError (List (List Char × List Char)) :=
  let line := full_line.drop 11
  let elements := splitOnList line " to ".toList
  if (elements.get? 2).isSome then
    .error ⟨msgTooManyParts full_line, stdout, stderr⟩
  else
    match elements.get? 0, elements.get? 1 with
    | some k, some v => .ok (assocInsert acc k v)
    | _, _ => .error ⟨msgMissingSide full_line, stdout, stderr⟩

/-- The parse loop over the filtered `Installing ` lines
(src/build/meson.rs:106-122). -/
def parseInstallLines (stdout stderr : List Char) :
    List (List Char) → List (List Char × List Char) →
    Except BuildStepError (List (List Char × List Char))
  | [], acc => .ok acc
  | full_line :: rest, acc =>
      match parseOneLine stdout stderr full_line acc with
      | .error e => .error e
      | .ok acc' => parseInstallLines stdout stderr rest acc'

/-- The `matches!` extension classification (src/build/meson.rs:136-139). -/
def libExtensionKind (ext : List Char) : Option LibraryType :=
  if ext = ['a'] ∨ ext = ['l', 'i', 'b'] then some .Static
  else if ext = ['s', 'o'] ∨ ext = ['d', 'l', 'l'] then some .Shared
  else none

/-- The gather loop over the aggregated map (src/build/meson.rs:126-145):
entries without an extension are skipped; a target that is not a directory
is logged and skipped; recognized library extensions append a library
entry and a native search-path entry. -/
def gatherInstalledElements (isDir : List Char → Bool) :
    List (List Char × List Char) → BuildResult → BuildResult
  | [], result => result
  | (key, value) :: rest, result =>
      match pathExtension key with
      | none => gatherInstalledElements isDir rest result
      | some extension =>
          if !isDir value then
            gatherInstalledElements isDir rest result
          else
            match libExtensionKind extension with
            | none => gatherInstalledElements isDir rest result
            | some kind =>
                gatherInstalledElements isDir rest
                  ((result.add_library ((pathFileName key).getD []) (some kind)).add_library_path
                    value (some .Native))

/-- The whole install phase of `MesonBuild::execute`
(src/build/meson.rs:103-145), after `meson install` has produced
`stdout`/`stderr`. -/
def mesonInstallPhase (isDir : List Char → Bool) (stdout stderr : List Char)
    (result : BuildResult) : Except BuildStepError BuildResult :=
  let install_lines := (rustLines stdout).filter (fun l => "Installing ".toList.isPrefixOf l)
  match parseInstallLines stdout stderr install_lines [] with
  | .error e => .error e
  | .ok installed_elements => .ok (gatherInstalledElements isDir installed_elements result)

theorem parseInstallLines_append (stdout stderr : List Char) (pre : List (List Char)) :
    ∀ (rest : List (List Char)) (acc acc' : List (List Char × List Char)),
      parseInstallLines stdout stderr pre acc = .ok acc' →
      parseInstallLines stdout stderr (pre ++ rest) acc =
        parseInstallLines stdout stderr rest acc' := by
  induction pre with
  | nil =>
      intro rest acc acc' hp
      simp only [parseInstallLines, Except.ok.injEq] at hp
      subst hp
      simp
  | cons l ls ih =>
      intro rest acc acc' hp
      cases hone : parseOneLine stdout stderr l acc with
      | error e =>
          simp only [parseInstallLines, hone] at hp
          exact absurd hp (by simp)
      | ok acc₁ =>
          simp only [parseInstallLines, hone] at hp
          simp only [List.cons_append, parseInstallLines, hone]
          exact ih rest acc₁ acc' hp

/-- **C6**: (a) parsing an install output consisting of the line
`Installing /x/libfoo.a to /out/lib`, when `/out/lib` is a directory,
appends exactly one static library entry `libfoo.a` and exactly one
native search-path entry `/out/lib` to the build result; (b) the
aggregation map is keyed by source path with the last writer winning on a
duplicate key; (c) an entry whose source has no recognized library
extension adds nothing. -/
theorem C6_install_manifest_happy_path :
    (∀ (isDir : List Char → Bool) (stderr : List Char) (r : BuildResult),
       isDir "/out/lib".toList = true →
       mesonInstallPhase isDir "Installing /x/libfoo.a to /out/lib".toList stderr r =
         .ok ((r.add_library "libfoo.a".toList (some .Static)).add_library_path
           "/out/lib".toList (some .Native))) ∧
    (∀ (m : List (List Char × List Char)) (k v : List Char),
       assocLookup (assocInsert m k v) k = some v) ∧
    (∀ (isDir : List Char → Bool) (key value : List Char)
       (rest : List (List Char × List Char)) (r : BuildResult),
       (∀ e, pathExtension key = some e → libExtensionKind e = none) →
       gatherInstalledElements isDir ((key, value) :: rest) r =
         gatherInstalledElements isDir rest r) := by
  refine ⟨?_, ?_, ?_⟩
  · intro isDir stderr r h
    have hred : mesonInstallPhase isDir "Installing /x/libfoo.a to /out/lib".toList stderr r =
        .ok (gatherInstalledElements isDir [("/x/libfoo.a".toList, "/out/lib".toList)] r) := rfl
    rw [hred]
    simp only [gatherInstalledElements,
      show pathExtension "/x/libfoo.a".toList = some ['a'] from rfl, h,
      Bool.not_true, Bool.false_eq_true, if_false,
      show libExtensionKind ['a'] = some LibraryType.Static from rfl,
      show (pathFileName "/x/libfoo.a".toList).getD [] = "libfoo.a".toList from rfl]
  · intro m k v
    induction m with
    | nil => simp [assocInsert, assocLookup]
    | cons kv rest ih =>
        obtain ⟨k', v'⟩ := kv
        by_cases hk : k' = k
        · simp [assocInsert, assocLookup, hk]
        · simp [assocInsert, assocLookup, hk, ih]
  · intro isDir key value rest r hnone
    cases hext : pathExtension key with
    | none => simp [gatherInstalledElements, hext]
    | some e =>
        have hk := hnone e hext
        cases hdir : isDir value with
        | false => simp [gatherInstalledElements, hext, hdir]
        | true => simp [gatherInstalledElements, hext, hdir, hk]

/-- Witness for `C6_install_manifest_happy_path`: concrete `isDir` oracle
recognizing `/out/lib`, and a `.txt` entry adding nothing. -/
theorem C6_install_manifest_happy_path_witness :
    mesonInstallPhase (fun p => decide (p = "/out/lib".toList))
        "Installing /x/libfoo.a to /out/lib".toList [] BuildResult.new =
      .ok ((BuildResult.new.add_library "libfoo.a".toList (some .Static)).add_library_path
        "/out/lib".toList (some .Native)) ∧
    gatherInstalledElements (fun _ => true)
        [("/x/readme.txt".toList, "/out".toList)] BuildResult.new =
      gatherInstalledElements (fun _ => true) [] BuildResult.new :=
  ⟨C6_install_manifest_happy_path.1 _ [] BuildResult.new (by simp),
    C6_install_manifest_happy_path.2.2 _ "/x/readme.txt".toList "/out".toList []
      BuildResult.new
      (by
        intro e he
        rw [show pathExtension "/x/readme.txt".toList = some "txt".toList from rfl] at he
        obtain rfl : "txt".toList = e := Option.some.inj he
        decide)⟩

/-- **C7**: for an `Installing ` line whose remainder splits on `" to "`
into three or more parts (the separator occurs more than once), the parser
fails with the "more than one \" to \" parts" error naming the line; for a
remainder that does not split (no separator, so a side is missing), it
fails with the "misses the key or value" error naming the line; such a
failure propagates past any prefix of well-formed lines; and a parse
failure makes the whole install phase return that error, discarding the
build result (no library or search-path entry is added). -/
theorem C7_install_manifest_parse_errors :
    (∀ (stdout stderr full_line : List Char) (acc : List (List Char × List Char)),
       3 ≤ (splitOnList (full_line.drop 11) " to ".toList).length →
       parseOneLine stdout stderr full_line acc =
         .error ⟨msgTooManyParts full_line, stdout, stderr⟩) ∧
    (∀ (stdout stderr full_line : List Char) (acc : List (List Char × List Char)),
       (splitOnList (full_line.drop 11) " to ".toList).length = 1 →
       parseOneLine stdout stderr full_line acc =
         .error ⟨msgMissingSide full_line, stdout, stderr⟩) ∧
    (∀ (stdout stderr : List Char) (pre post : List (List Char)) (full_line : List Char)
       (acc' : List (List Char × List Char)) (e : BuildStepError),
       parseInstallLines stdout stderr pre [] = .ok acc' →
       parseOneLine stdout stderr full_line acc' = .error e →
       parseInstallLines stdout stderr (pre ++ full_line :: post) [] = .error e) ∧
    (∀ (isDir : List Char → Bool) (stdout stderr : List Char) (r : BuildResult)
       (e : BuildStepError),
       parseInstallLines stdout stderr
           ((rustLines stdout).filter (fun l => "Installing ".toList.isPrefixOf l)) [] =
         .error e →
       mesonInstallPhase isDir stdout stderr r = .error e) := by
  refine ⟨?_, ?_, ?_, ?_⟩
  · intro stdout stderr full_line acc h
    rcases hl : splitOnList (full_line.drop 11) " to ".toList with _ | ⟨a, _ | ⟨b, _ | ⟨c, t⟩⟩⟩
    · rw [hl] at h; simp at h
    · rw [hl] at h; simp at h
    · rw [hl] at h; simp at h
    · simp only [parseOneLine]
      rw [hl]
      rfl
  · intro stdout stderr full_line acc h
    rcases hl : splitOnList (full_line.drop 11) " to ".toList with _ | ⟨a, _ | ⟨b, t⟩⟩
    · rw [hl] at h; simp at h
    · simp only [parseOneLine]
      rw [hl]
      rfl
    · rw [hl] at h; simp at h
  · intro stdout stderr pre post full_line acc' e h1 h2
    rw [parseInstallLines_append stdout stderr pre (full_line :: post) [] acc' h1]
    simp only [parseInstallLines, h2]
  · intro isDir stdout stderr r e h
    simp only [mesonInstallPhase]
    rw [h]

/-! ## Claim C4 — the meson setup recovery loop (src/build/meson.rs:36-84)

The subprocess world enters as an environment: the outcome of the `n`-th
`meson setup` invocation, the outcome of `meson wrap promote <file>`, and
the configured recovery callback.  The loop's fuel bounds the number of
setup attempts (the Rust loop itself is unbounded; every theorem below
speaks about one round or one unfolding, which is fuel-independent). -/

/-- The diagnostic pattern scanned for at src/build/meson.rs:58. -/
def promotePat : List Char := "meson wrap promote ".toList

/-- Environment for the setup state machine. -/
structure MesonSetupEnv where
  setupResult : Nat → Option BuildStepError
  promoteExec : List Char → Option BuildStepError
  callback_promote : Option (List Char → List (List Char))

/-- Outcome of the failure handler at src/build/meson.rs:57-82: retry the
setup from the top, or fail with an error; either way the list of files
for which a promotion subprocess was run is recorded. -/
inductive SetupDecision where
  | retry (promoted : List (List Char))
  | fail (e : BuildStepError) (promoted : List (List Char))
deriving DecidableEq

/-- The promotion loop (src/build/meson.rs:64-73): one subprocess per file,
stopping at the first failure (the `?` operator propagates it). -/
def runPromotes (promoteExec : List Char → Option BuildStepError) :
    List (List Char) → List (List Char) × Option BuildStepError
  | [] => ([], none)
  | f :: rest =>
      match promoteExec f with
      | some e => ([f], some e)
      | none =>
          let p := runPromotes promoteExec rest
          (f :: p.1, p.2)

/-- The `if let Err(error)` body at src/build/meson.rs:57-82: scan the
captured stdout's lines for the diagnostic (`find("meson wrap promote ")`,
modelled as the `" to "`-style split producing at least two parts), take
the text after the first occurrence as the callback argument
(`split(..).nth(1)`), and decide between retry and failure. -/
def handleSetupFailure (env : MesonSetupEnv) (error : BuildStepError) : SetupDecision :=
  match (rustLines error.stdout).find?
      (fun line => decide (2 ≤ (splitOnList line promotePat).length)) with
  | none => .fail error []
  | some line =>
      let argument := (splitOnList line promotePat).getD 1 []
      match env.callback_promote with
      | none => .fail error []
      | some callback =>
          let promote := callback argument
          if promote.isEmpty then .fail error []
          else
            match runPromotes env.promoteExec promote with
            | (executed, some e) => .fail e executed
            | (executed, none) => .retry executed

/-- The `while execute_setup` loop (src/build/meson.rs:36-84): the `n`-th
iteration invokes setup attempt `n`; `none` means the fuel ran out. -/
def mesonSetupLoop (env : MesonSetupEnv) : Nat → Nat → Option (Except BuildStepError Unit)
  | 0, _ => none
  | fuel + 1, n =>
      match env.setupResult n with
      | none => some (.ok ())
      | some err =>
          match handleSetupFailure env err with
          | .fail e _ => some (.error e)
          | .retry _ => mesonSetupLoop env fuel (n + 1)

theorem runPromotes_all_ok (pe : List Char → Option BuildStepError) :
    ∀ files : List (List Char), (∀ f ∈ files, pe f = none) →
      runPromotes pe files = (files, none) := by
  intro files h
  induction files with
  | nil => rfl
  | cons f rest ih =>
      have hf : pe f = none := h f (by simp)
      simp only [runPromotes, hf, ih (fun g hg => h g (by simp [hg]))]

theorem runPromotes_first_error (pe : List Char → Option BuildStepError)
    (pre : List (List Char)) :
    ∀ (f : List Char) (post : List (List Char)) (e : BuildStepError),
      (∀ g ∈ pre, pe g = none) → pe f = some e →
      runPromotes pe (pre ++ f :: post) = (pre ++ [f], some e) := by
  induction pre with
  | nil => intro f post e _ hf; simp [runPromotes, hf]
  | cons g rest ih =>
      intro f post e hpre hf
      have hg : pe g = none := hpre g (by simp)
      simp only [List.cons_append, runPromotes, hg, List.append_eq,
        ih f post e (fun g' hg' => hpre g' (by simp [hg'])) hf]

/-- **C4**: when setup fails and the captured stdout contains the
wrap-promotion diagnostic line: with a configured callback returning a
non-empty file list whose promotions all succeed, one promotion runs per
returned file and the handler decides to retry setup from the top; a
promotion failure aborts the round with that failure (having run exactly
the promotions up to it); an empty callback result, a missing callback, or
an absent diagnostic line each make the original setup error the step's
failure; and a retry decision makes the loop re-invoke setup with the next
attempt index. -/
theorem C4_setup_recovery :
    (∀ (env : MesonSetupEnv) (err : BuildStepError) (line : List Char)
       (cb : List Char → List (List Char)) (files : List (List Char)),
       (rustLines err.stdout).find?
           (fun l => decide (2 ≤ (splitOnList l promotePat).length)) = some line →
       env.callback_promote = some cb →
       cb ((splitOnList line promotePat).getD 1 []) = files → files ≠ [] →
       (∀ f ∈ files, env.promoteExec f = none) →
       handleSetupFailure env err = .retry files) ∧
    (∀ (env : MesonSetupEnv) (err : BuildStepError) (line : List Char)
       (cb : List Char → List (List Char)) (pre : List (List Char)) (f : List Char)
       (post : List (List Char)) (e : BuildStepError),
       (rustLines err.stdout).find?
           (fun l => decide (2 ≤ (splitOnList l promotePat).length)) = some line →
       env.callback_promote = some cb →
       cb ((splitOnList line promotePat).getD 1 []) = pre ++ f :: post →
       (∀ g ∈ pre, env.promoteExec g = none) → env.promoteExec f = some e →
       handleSetupFailure env err = .fail e (pre ++ [f])) ∧
    (∀ (env : MesonSetupEnv) (err : BuildStepError) (line : List Char)
       (cb : List Char → List (List Char)),
       (rustLines err.stdout).find?
           (fun l => decide (2 ≤ (splitOnList l promotePat).length)) = some line →
       env.callback_promote = some cb →
       cb ((splitOnList line promotePat).getD 1 []) = [] →
       handleSetupFailure env err = .fail err []) ∧
    (∀ (env : MesonSetupEnv) (err : BuildStepError) (line : List Char),
       (rustLines err.stdout).find?
           (fun l => decide (2 ≤ (splitOnList l promotePat).length)) = some line →
       env.callback_promote = none →
       handleSetupFailure env err = .fail err []) ∧
    (∀ (env : MesonSetupEnv) (err : BuildStepError),
       (rustLines err.stdout).find?
           (fun l => decide (2 ≤ (splitOnList l promotePat).length)) = none →
       handleSetupFailure env err = .fail err []) ∧
    (∀ (env : MesonSetupEnv) (fuel n : Nat) (err : BuildStepError) (l : List (List Char)),
       env.setupResult n = some err → handleSetupFailure env err = .retry l →
       mesonSetupLoop env (fuel + 1) n = mesonSetupLoop env fuel (n + 1)) := by
  refine ⟨?_, ?_, ?_, ?_, ?_, ?_⟩
  · intro env err line cb files hfind hcb harg hne hok
    simp only [handleSetupFailure, hfind, hcb, harg,
      runPromotes_all_ok env.promoteExec files hok]
    simp [List.isEmpty_iff, hne]
  · intro env err line cb pre f post e hfind hcb harg hpre hf
    simp only [handleSetupFailure, hfind, hcb, harg,
      runPromotes_first_error env.promoteExec pre f post e hpre hf]
    simp [List.isEmpty_iff]
  · intro env err line cb hfind hcb harg
    simp only [handleSetupFailure, hfind, hcb, harg]
    rfl
  · intro env err line hfind hcb
    simp [handleSetupFailure, hfind, hcb]
  · intro env err hfind
    simp [handleSetupFailure, hfind]
  · intro env fuel n err l hs hh
    simp [mesonSetupLoop, hs, hh]

/-- Witness for `C4_setup_recovery`: a setup failure whose stdout suggests
`meson wrap promote subprojects/foo.wrap`, exercised against callbacks
that accept, fail, decline, are absent, and a failure without the
diagnostic. -/
theorem C4_setup_recovery_witness :
    handleSetupFailure
        ⟨fun n => if n = 0 then
            some ⟨"failed to setup build".toList,
              "Run: meson wrap promote subprojects/foo.wrap".toList, []⟩
          else none,
         fun _ => none, some (fun arg => [arg])⟩
        ⟨"failed to setup build".toList,
          "Run: meson wrap promote subprojects/foo.wrap".toList, []⟩ =
      .retry ["subprojects/foo.wrap".toList] ∧
    handleSetupFailure
        ⟨fun _ => none, fun _ => some ⟨"promote failed".toList, [], []⟩,
         some (fun arg => [arg])⟩
        ⟨"failed to setup build".toList,
          "Run: meson wrap promote subprojects/foo.wrap".toList, []⟩ =
      .fail ⟨"promote failed".toList, [], []⟩ ([] ++ ["subprojects/foo.wrap".toList]) ∧
    handleSetupFailure ⟨fun _ => none, fun _ => none, some (fun _ => [])⟩
        ⟨"failed to setup build".toList,
          "Run: meson wrap promote subprojects/foo.wrap".toList, []⟩ =
      .fail ⟨"failed to setup build".toList,
        "Run: meson wrap promote subprojects/foo.wrap".toList, []⟩ [] ∧
    handleSetupFailure ⟨fun _ => none, fun _ => none, none⟩
        ⟨"failed to setup build".toList,
          "Run: meson wrap promote subprojects/foo.wrap".toList, []⟩ =
      .fail ⟨"failed to setup build".toList,
        "Run: meson wrap promote subprojects/foo.wrap".toList, []⟩ [] ∧
    handleSetupFailure ⟨fun _ => none, fun _ => none, some (fun arg => [arg])⟩
        ⟨"failed to setup build".toList, "nothing informative".toList, []⟩ =
      .fail ⟨"failed to setup build".toList, "nothing informative".toList, []⟩ [] ∧
    mesonSetupLoop
        ⟨fun n => if n = 0 then
            some ⟨"failed to setup build".toList,
              "Run: meson wrap promote subprojects/foo.wrap".toList, []⟩
          else none,
         fun _ => none, some (fun arg => [arg])⟩ 2 0 =
      mesonSetupLoop
        ⟨fun n => if n = 0 then
            some ⟨"failed to setup build".toList,
              "Run: meson wrap promote subprojects/foo.wrap".toList, []⟩
          else none,
         fun _ => none, some (fun arg => [arg])⟩ 1 1 :=
  ⟨C4_setup_recovery.1 _ _ "Run: meson wrap promote subprojects/foo.wrap".toList
      (fun arg => [arg]) _ rfl rfl rfl (by simp) (fun f _ => rfl),
    C4_setup_recovery.2.1 _ _ "Run: meson wrap promote subprojects/foo.wrap".toList
      (fun arg => [arg]) [] "subprojects/foo.wrap".toList [] ⟨"promote failed".toList, [], []⟩
      rfl rfl rfl (fun g hg => absurd hg (by simp)) rfl,
    C4_setup_recovery.2.2.1 _ _ "Run: meson wrap promote subprojects/foo.wrap".toList
      (fun _ => []) rfl rfl rfl,
    C4_setup_recovery.2.2.2.1 _ _ "Run: meson wrap promote subprojects/foo.wrap".toList
      rfl rfl,
    C4_setup_recovery.2.2.2.2.1 _ _ rfl,
    C4_setup_recovery.2.2.2.2.2 _ 1 0 _ ["subprojects/foo.wrap".toList] rfl rfl⟩

/-- Witness for `C7_install_manifest_parse_errors` at concrete lines. -/
theorem C7_install_manifest_parse_errors_witness :
    parseOneLine "s".toList "e".toList "Installing a to b to c".toList [] =
        .error ⟨msgTooManyParts "Installing a to b to c".toList, "s".toList, "e".toList⟩ ∧
    parseOneLine "s".toList "e".toList "Installing justonepart".toList [] =
        .error ⟨msgMissingSide "Installing justonepart".toList, "s".toList, "e".toList⟩ ∧
    parseInstallLines "s".toList "e".toList
        (["Installing x.a to /lib".toList] ++ "Installing a to b to c".toList :: []) [] =
        .error ⟨msgTooManyParts "Installing a to b to c".toList, "s".toList, "e".toList⟩ ∧
    mesonInstallPhase (fun _ => true) "Installing a to b to c".toList "e".toList
        BuildResult.new =
        .error ⟨msgTooManyParts "Installing a to b to c".toList,
          "Installing a to b to c".toList, "e".toList⟩ :=
  ⟨C7_install_manifest_parse_errors.1 _ _ _ _ (by decide),
    C7_install_manifest_parse_errors.2.1 _ _ _ _ (by decide),
    C7_install_manifest_parse_errors.2.2.1 "s".toList "e".toList
      ["Installing x.a to /lib".toList] [] "Installing a to b to c".toList
      [("x.a".toList, "/lib".toList)] _ rfl rfl,
    C7_install_manifest_parse_errors.2.2.2 _ _ _ BuildResult.new _ rfl⟩

/-! ## Claims C8/C10 — the build sources (src/source/file.rs, src/source/download.rs) -/

/-- `BuildStepError::new_io` (src/build/mod.rs:113-117). -/
def BuildStepError.new_io (detail io : List Char) : BuildStepError :=
  ⟨detail, [], "IOError: ".toList ++ io⟩

/-- `BuildSourceDirectoryError` (src/source/file.rs:6-11). -/
inductive BuildSourceDirectoryError where
  | TargetDoesNotExists
  | TargetIsNotADirectory
  | DirectoryNotAccessable
deriving DecidableEq, Repr

/-- `BuildSourceDirectory` (src/source/file.rs:13-15). -/
structure BuildSourceDirectory where
  path : List Char
deriving DecidableEq, Repr

/-- Filesystem probes `BuildSourceDirectory::new` performs on its target
path: `exists()`, `is_dir()`, and whether `read_dir()` succeeds. -/
structure FsProbe where
  pathExists : Bool
  pathIsDir : Bool
  readDirOk : Bool
deriving DecidableEq, Repr

/-- `BuildSourceDirectory::new` (src/source/file.rs:18-28), verbatim
branch structure. -/
def BuildSourceDirectory.new (target : List Char) (fs : FsProbe) :
    Except BuildSourceDirectoryError BuildSourceDirectory :=
  if fs.pathExists then .error .TargetDoesNotExists
  else if !fs.pathIsDir then .error .TargetIsNotADirectory
  else if fs.readDirOk then .error .DirectoryNotAccessable
  else .ok ⟨target⟩

/-- `BuildSourceDirectory::setup` (src/source/file.rs:40-42): a no-op that
always succeeds and leaves the source untouched. -/
def BuildSourceDirectory.setup (s : BuildSourceDirectory) :
    Except BuildStepError Unit × BuildSourceDirectory :=
  (.ok (), s)

/-- The subprocess/filesystem outcomes `BuildSourceGit::setup`
(src/source/download.rs:92-159) can observe, in program order. -/
structure GitEnv where
  gitStatusOk : Bool
  gitStatusRepr : List Char
  createTmp : Except (List Char) (List Char)
  dotGitExists : Bool
  fetchResult : Option BuildStepError
  removeDirResult : Option (List Char)
  createDirResult : Option (List Char)
  cloneResult : Option BuildStepError
  resetResult : Option BuildStepError

/-- src/source/download.rs:110-158: update-or-clone, then the optional
revision checkout, after the checkout folder exists. -/
def gitSetupInner (skip_revision_checkout : Bool) (env : GitEnv) : Except BuildStepError Unit :=
  let afterCheckout : Except BuildStepError Bool :=
    if env.dotGitExists then
      match env.fetchResult with
      | none => .ok true
      | some error =>
          if (splitOnList error.stderr "not a git repository".toList).length < 2 then
            .error error
          else
            match env.removeDirResult with
            | some ioe =>
                .error (BuildStepError.new_io
                  "failed to remove old temporary checkout directory".toList ioe)
            | none =>
                match env.createDirResult with
                | some ioe =>
                    .error (BuildStepError.new_io
                      "failed to create new temporary checkout directory".toList ioe)
                | none => .ok false
    else .ok false
  match afterCheckout with
  | .error e => .error e
  | .ok repository_exists =>
      let afterClone : Except BuildStepError Unit :=
        if !repository_exists then
          match env.cloneResult with
          | some e => .error e
          | none => .ok ()
        else .ok ()
      match afterClone with
      | .error e => .error e
      | .ok _ =>
          if !skip_revision_checkout then
            match env.resetResult with
            | some e => .error e
            | none => .ok ()
          else .ok ()

/-- `BuildSourceGit::setup` (src/source/download.rs:92-159): guards the
double-initialization flag and the git probe, creates (and immediately
stores) the checkout folder, then runs the inner acquisition.  The second
component is the updated `local_folder` state. -/
def BuildSourceGit.setup (skip_revision_checkout : Bool)
    (local_folder : Option (List Char)) (env : GitEnv) :
    Except BuildStepError Unit × Option (List Char) :=
  if local_folder.isSome then
    (.error (BuildStepError.new_simple "the source has already been initialized".toList),
      local_folder)
  else if !env.gitStatusOk then
    (.error (BuildStepError.new_simple ("git error: ".toList ++ env.gitStatusRepr)),
      local_folder)
  else
    match env.createTmp with
    | .error err =>
        (.error (BuildStepError.new_simple
          ("failed to create git checkout directory: ".toList ++ err)), local_folder)
    | .ok folder => (gitSetupInner skip_revision_checkout env, some folder)

/-- **C8 counterexample**: `BuildSourceDirectory::setup` is `Ok(())` both
the first and the second time — the Directory variant's second `setup`
does *not* fail. -/
theorem C8_counterexample_directory_setup_twice_ok :
    (BuildSourceDirectory.setup ⟨"/src".toList⟩).1 = .ok () ∧
      (BuildSourceDirectory.setup (BuildSourceDirectory.setup ⟨"/src".toList⟩).2).1 = .ok () :=
  ⟨rfl, rfl⟩

/-- **C8** (amended): the Git variant rejects a second `setup`: whenever a
first call succeeds (which stores the checkout folder), the second call
returns the "already been initialized" error and leaves the state as is;
the Directory variant's `setup`, by contrast, is a no-op returning `Ok`
on every call, including repeated ones. -/
theorem C8_setup_twice :
    (∀ (skip₁ skip₂ : Bool) (env₁ env₂ : GitEnv),
       (BuildSourceGit.setup skip₁ none env₁).1 = .ok () →
       BuildSourceGit.setup skip₂ (BuildSourceGit.setup skip₁ none env₁).2 env₂ =
         (.error (BuildStepError.new_simple "the source has already been initialized".toList),
           (BuildSourceGit.setup skip₁ none env₁).2)) ∧
    (∀ s : BuildSourceDirectory, BuildSourceDirectory.setup s = (.ok (), s)) := by
  constructor
  · intro skip₁ skip₂ env₁ env₂ h1
    have hsome : (BuildSourceGit.setup skip₁ none env₁).2.isSome = true := by
      unfold BuildSourceGit.setup at h1 ⊢
      cases hgs : env₁.gitStatusOk with
      | false => rw [hgs] at h1; exact absurd h1 (by simp)
      | true =>
          rw [hgs] at h1
          cases hct : env₁.createTmp with
          | error e => rw [hct] at h1; exact absurd h1 (by simp)
          | ok folder => rfl
    rcases hs2 : (BuildSourceGit.setup skip₁ none env₁).2 with _ | folder
    · rw [hs2] at hsome; exact absurd hsome (by simp)
    · rfl
  · intro s
    rfl

/-- Witness for `C8_setup_twice`: a concrete environment in which the
first Git setup succeeds (fresh clone, revision checkout skipped), making
the second call fail. -/
theorem C8_setup_twice_witness :
    BuildSourceGit.setup true
        (BuildSourceGit.setup true none
          ⟨true, "git version 2.39.0".toList, .ok "/tmp/git_x".toList, false,
            none, none, none, none, none⟩).2
        ⟨true, "git version 2.39.0".toList, .ok "/tmp/git_x".toList, true,
          none, none, none, none, none⟩ =
      (.error (BuildStepError.new_simple "the source has already been initialized".toList),
        (BuildSourceGit.setup true none
          ⟨true, "git version 2.39.0".toList, .ok "/tmp/git_x".toList, false,
            none, none, none, none, none⟩).2) :=
  C8_setup_twice.1 true true
    ⟨true, "git version 2.39.0".toList, .ok "/tmp/git_x".toList, false,
      none, none, none, none, none⟩
    ⟨true, "git version 2.39.0".toList, .ok "/tmp/git_x".toList, true,
      none, none, none, none, none⟩ rfl

/-- **C10**: `BuildSourceDirectory::new` never returns `Ok`: its first
check errors with `TargetDoesNotExists` precisely when the target *does*
exist, and a non-existent path is never a directory, so the second check
errors with `TargetIsNotADirectory` for every non-existent target. -/
theorem C10_directory_new_never_ok (target : List Char) (fs : FsProbe)
    (himpl : fs.pathIsDir = true → fs.pathExists = true) :
    (fs.pathExists = true →
       BuildSourceDirectory.new target fs = .error .TargetDoesNotExists) ∧
    (fs.pathExists = false →
       BuildSourceDirectory.new target fs = .error .TargetIsNotADirectory) ∧
    (∀ v, BuildSourceDirectory.new target fs ≠ .ok v) := by
  refine ⟨?_, ?_, ?_⟩
  · intro h
    simp [BuildSourceDirectory.new, h]
  · intro h
    have hdir : fs.pathIsDir = false := by
      cases hd : fs.pathIsDir with
      | false => rfl
      | true => rw [himpl hd] at h; exact absurd h (by simp)
    simp [BuildSourceDirectory.new, h, hdir]
  · intro v hok
    cases hex : fs.pathExists with
    | true => simp [BuildSourceDirectory.new, hex] at hok
    | false =>
        have hdir : fs.pathIsDir = false := by
          cases hd : fs.pathIsDir with
          | false => rfl
          | true => rw [himpl hd] at hex; exact absurd hex (by simp)
        simp [BuildSourceDirectory.new, hex, hdir] at hok

/-- Witness for `C10_directory_new_never_ok` at an existing directory
target (the constructor still fails). -/
theorem C10_directory_new_never_ok_witness :
    ((⟨true, true, true⟩ : FsProbe).pathExists = true →
       BuildSourceDirectory.new "/src".toList ⟨true, true, true⟩ =
         .error .TargetDoesNotExists) ∧
    ((⟨true, true, true⟩ : FsProbe).pathExists = false →
       BuildSourceDirectory.new "/src".toList ⟨true, true, true⟩ =
         .error .TargetIsNotADirectory) ∧
    (∀ v, BuildSourceDirectory.new "/src".toList ⟨true, true, true⟩ ≠ .ok v) :=
  C10_directory_new_never_ok "/src".toList ⟨true, true, true⟩ (fun _ => rfl)

end BuildUtils
